import Mathlib

/-!
Verification development for the py-oeis library (`oeis.py`).

The Python class `Sequence` holds a sequence id and an in-memory list of
terms (`self.sequence`). Its methods are embedded below as pure Lean
functions. Stateful methods are modelled as explicit state passing:
each operation takes the current `Sequence` state (and, for operations
that talk to the network, an `Env` describing what the remote endpoints
would answer) and returns a triple
  `(result-or-error, new state, number of bulk b-file HTTP requests made)`.
The last component counts evaluations of `requests.get` against the bulk
values endpoint inside the operation, which is what the spec's "remote
bulk call" statements are about.

Python dynamic typing and exceptions are made explicit: fallible
operations return `Except PyErr`, and values whose runtime type varies
are modelled by the `PyVal` union.
-/

set_option autoImplicit false

deriving instance DecidableEq for Except

namespace PyOeis

/-- The exception kinds raised by `oeis.py` (library-defined classes) together
with the built-in Python exceptions its expressions can raise. -/
inductive PyErr where
  | nonExistentSequence
  | negativeIndexError
  | indexTooHighError
  | emptyQuery
  | typeError
  | valueError
  | indexError
  deriving DecidableEq, Repr

/-- State of a `Sequence` instance: `seq_id` and the mutable term list
`self.sequence`. The `info` dict is metadata never consulted by the
operations under study and is omitted from the state. -/
structure Sequence where
  seq_id : Int
  sequence : List Int
  deriving DecidableEq, Repr

/-- A Python runtime value, as far as the embedded expressions need:
an `int` or a `list` of ints. -/
inductive PyVal where
  | int (n : Int)
  | list (xs : List Int)
  deriving DecidableEq, Repr

/-- Python `+` on runtime values: `int + int` adds, `list + list`
concatenates, every other combination raises `TypeError`. -/
def pyAdd : PyVal → PyVal → Except PyErr PyVal
  | .int a, .int b => .ok (.int (a + b))
  | .list a, .list b => .ok (.list (a ++ b))
  | _, _ => .error .typeError

/-- Python `-` on runtime values: only `int - int` is defined; every other
combination raises `TypeError`. -/
def pySub : PyVal → PyVal → Except PyErr PyVal
  | .int a, .int b => .ok (.int (a - b))
  | _, _ => .error .typeError

/-- Python `lst[i]` for an `int` index: negative indices count from the end,
out-of-range raises `IndexError`. -/
def pyIndex (xs : List Int) : PyVal → Except PyErr Int
  | .int i =>
      let j := if i < 0 then i + xs.length else i
      if h : 0 ≤ j ∧ j.toNat < xs.length then .ok (xs.get ⟨j.toNat, h.2⟩)
      else .error .indexError
  | .list _ => .error .typeError

/-! ### Python string primitives, over `List Char`

`fetch_sequence` manipulates the b-file text with `rstrip('\n')`,
`split('\n')`, `startswith('#')`, `split()` and `int(...)`. These are
embedded over the character list of the text. -/

/-- Python `s.rstrip('\n')`: drop every trailing newline character. -/
def rstripNl (cs : List Char) : List Char :=
  (cs.reverse.dropWhile (fun c => c = '\n')).reverse

/-- Split a character list at every character satisfying `p`, keeping empty
groups — the behaviour of Python `str.split(sep)` for a one-character
separator when `p` matches exactly that character. -/
def splitOnPred (p : Char → Bool) : List Char → List (List Char)
  | [] => [[]]
  | c :: rest =>
      match splitOnPred p rest with
      | [] => [[]]
      | g :: gs => if p c then [] :: g :: gs else (c :: g) :: gs

/-- Python `str.split()` with no argument: split on whitespace runs,
discarding empty tokens. -/
def wsTokens (cs : List Char) : List (List Char) :=
  (splitOnPred (fun c => c.isWhitespace) cs).filter (fun t => t ≠ [])

/-- Python `x.startswith('#')`. -/
def startsWithHash : List Char → Bool
  | '#' :: _ => true
  | _ => false

/-- Digit-string to number; `none` when empty or a non-digit occurs. -/
def parseNatGo (acc : Nat) : List Char → Option Nat
  | [] => some acc
  | c :: rest =>
      if c.isDigit then parseNatGo (acc * 10 + (c.toNat - 48)) rest
      else none

/-- The digits of a non-empty all-digit string, as a natural number. -/
def parseNat : List Char → Option Nat
  | [] => none
  | cs => parseNatGo 0 cs

/-- Python `int(tok)` on a whitespace-free token: optional sign followed by
at least one digit; anything else raises `ValueError`. -/
def pyIntChars : List Char → Except PyErr Int
  | '-' :: rest =>
      match parseNat rest with
      | some n => .ok (-(n : Int))
      | none => .error .valueError
  | '+' :: rest =>
      match parseNat rest with
      | some n => .ok (n : Int)
      | none => .error .valueError
  | cs =>
      match parseNat cs with
      | some n => .ok (n : Int)
      | none => .error .valueError

/-- Python `int(item.split()[1])` for one b-file line: the second whitespace
token parsed as an integer; a missing token is an `IndexError`. -/
def lineValue (l : List Char) : Except PyErr Int :=
  match (wsTokens l).get? 1 with
  | some t => pyIntChars t
  | none => .error .indexError

/-- The lines of the b-file text as the code computes them:
`text.rstrip('\n').split('\n')`. -/
def pyLines (text : String) : List (List Char) :=
  splitOnPred (fun c => c = '\n') (rstripNl text.data)

/-- The whole parse in `fetch_sequence`: drop lines starting with `#`,
then `[int(item.split()[1]) for item in seq_page]`. -/
def parseBulk (text : String) : Except PyErr (List Int) :=
  ((pyLines text).filter (fun l => ¬ startsWithHash l)).mapM lineValue

/-- What the remote endpoints would answer for this instance: the text of
the b-file `https://oeis.org/A{id}/b{id}.txt`. -/
structure Env where
  bulkText : String

/-- Method `Sequence.fetch_sequence`: one GET of the b-file (hence bulk-call count 1
on every invocation), parse it, and replace `self.sequence` wholesale with
the parsed list. A parse failure propagates and leaves the state unchanged. -/
def Sequence.fetch_sequence (env : Env) (s : Sequence) :
    Except PyErr Unit × Sequence × Nat :=
  match parseBulk env.bulkText with
  | .ok l => (.ok (), { s with sequence := l }, 1)
  | .error e => (.error e, s, 1)

/-- Method `Sequence.nth_term`: negative index fails, index at or beyond the current
sample length fails, otherwise return `self.sequence[index]`. The method body
contains no network operation, so the bulk-call count is 0. -/
def Sequence.nth_term (s : Sequence) (index : Int) :
    Except PyErr Int × Sequence × Nat :=
  (if index < 0 then .error .negativeIndexError
   else if (s.sequence.length : Int) ≤ index then .error .indexTooHighError
   else .ok (s.sequence.getD index.toNat 0), s, 0)

/-- One step of extended-slice extraction: collect `xs[i]`, `xs[i+step]`, …
while `i` is short of `stop` in the direction of `step`; the fuel bounds the
iteration count. -/
def sliceGo (xs : List Int) (stop step : Int) : Int → Nat → List Int
  | _, 0 => []
  | i, fuel + 1 =>
      if (if 0 < step then i < stop else stop < i) then
        xs.getD i.toNat 0 :: sliceGo xs stop step (i + step) fuel
      else []

/-- Python `xs[start:stop:step]` under the precondition `0 ≤ start ≤ len`,
`0 ≤ stop ≤ len` that `subsequence` has already validated: step 0 raises
`ValueError`; a negative step clamps both endpoints to `len - 1`. -/
def pySlice (xs : List Int) (start stop step : Int) : Except PyErr (List Int) :=
  if step = 0 then .error .valueError
  else
    let n : Int := xs.length
    if 0 < step then .ok (sliceGo xs stop step start (xs.length + 1))
    else
      let a := if n ≤ start then n - 1 else start
      let b := if n ≤ stop then n - 1 else stop
      .ok (sliceGo xs b step a (xs.length + 1))

/-- Method `Sequence.subsequence`: default `start = 0`, `stop = len(self)`,
`step = 1`; negative start or stop fails; start or stop strictly above the
current length fails; otherwise return the slice. No network operation
occurs in the body, so the bulk-call count is 0. -/
def Sequence.subsequence (s : Sequence)
    (start? stop? step? : Option Int) :
    Except PyErr (List Int) × Sequence × Nat :=
  let start := start?.getD 0
  let stop := stop?.getD (s.sequence.length : Int)
  let step := step?.getD 1
  (if start < 0 then .error .negativeIndexError
   else if stop < 0 then .error .negativeIndexError
   else if (s.sequence.length : Int) < start then .error .indexTooHighError
   else if (s.sequence.length : Int) < stop then .error .indexTooHighError
   else pySlice s.sequence start stop step, s, 0)

/-- The loop of `Sequence.find`: walk `enumerate(self.sequence)` with the
accumulated `result`; once `len(result) == instances` return early, and
append the index of each element equal to `item`. -/
def findGo (item instances : Int) : List Int → Int → List Int → List Int
  | [], _, result => result
  | v :: rest, idx, result =>
      if (result.length : Int) = instances then result
      else if v = item then findGo item instances rest (idx + 1) (result ++ [idx])
      else findGo item instances rest (idx + 1) result

/-- Method `Sequence.find(item, instances)`: `instances` defaults to 1. -/
def Sequence.find (s : Sequence) (item : Int) (instances? : Option Int) :
    List Int :=
  findGo item (instances?.getD 1) s.sequence 0 []

/-- Method `Sequence.next(item)`: the code evaluates
`self.sequence[self.find(item) + 1]` — `find` returns a list, so the `+ 1`
is Python list-plus-int. -/
def Sequence.next (s : Sequence) (item : Int) :
    Except PyErr Int × Sequence × Nat :=
  (match pyAdd (.list (s.find item none)) (.int 1) with
   | .ok v => pyIndex s.sequence v
   | .error e => .error e, s, 0)

/-- Method `Sequence.prev(item)`: the code evaluates
`self.sequence[self.find(item) - 1]` — `find` returns a list, so the `- 1`
is Python list-minus-int. -/
def Sequence.prev (s : Sequence) (item : Int) :
    Except PyErr Int × Sequence × Nat :=
  (match pySub (.list (s.find item none)) (.int 1) with
   | .ok v => pyIndex s.sequence v
   | .error e => .error e, s, 0)

/-- A key passed to `Sequence.__getitem__`: an `int`, a `slice`, or any
other runtime type (represented by a string key, the concrete example). -/
inductive PyKey where
  | int (i : Int)
  | slice (start stop step : Option Int)
  | str (s : String)

/-- Method `Sequence.__getitem__`: dispatch on the runtime type of the key; an
`int` goes to `nth_term`, a `slice` to `subsequence`, and any other key
falls through the `if`/`elif` so the method returns Python `None`
(modelled as `Option.none`) without raising. -/
def Sequence.getitem (s : Sequence) (key : PyKey) :
    Except PyErr (Option PyVal) × Sequence × Nat :=
  match key with
  | .int i =>
      match s.nth_term i with
      | (.ok v, t, c) => (.ok (some (.int v)), t, c)
      | (.error e, t, c) => (.error e, t, c)
  | .slice a b c =>
      match s.subsequence a b c with
      | (.ok l, t, n) => (.ok (some (.list l)), t, n)
      | (.error e, t, n) => (.error e, t, n)
  | .str _ => (.ok none, s, 0)

/-- One record of the search response; only the `number` field is consumed
when constructing `Sequence` objects. -/
structure SearchRec where
  number : Int
  deriving DecidableEq, Repr

/-- What the search endpoint would answer: `json()['results']`, either
`null` or a list of records. -/
structure QueryEnv where
  searchResult : Option (List SearchRec)

/-- Python `l[:r]`: for nonnegative `r` the first `r` elements, for negative
`r` all but the last `-r`. -/
def pyTakeSlice (r : Int) {α : Type} (l : List α) : List α :=
  if 0 ≤ r then l.take r.toNat
  else l.take ((l.length : Int) + r).toNat

set_option linter.unusedVariables false in
/-- The free function `query(terms, start, results)`: empty `terms` raises
`EmptyQuery` before any request; otherwise one search GET happens, a `null`
result list yields `[]`, and otherwise one `Sequence` is constructed per
record of `search[:results]` (each construction being one more metadata
GET). The returned list holds the ids the `Sequence` objects are built
from; the call count is the search GET plus one per construction. -/
def query (env : QueryEnv) (terms : List String)
    (start? results? : Option Int) : Except PyErr (List Int) × Nat :=
  if terms = [] then (.error .emptyQuery, 0)
  else
    let results := results?.getD 10
    match env.searchResult with
    | none => (.ok [], 1)
    | some search =>
        (.ok ((pyTakeSlice results search).map (fun r => r.number)),
         1 + (pyTakeSlice results search).length)

/-- Modelled from the spec (§4.4), for comparison with the code-derived
`lineValue`: the value contributed by one line is "the second
whitespace-separated token of each line as an integer". -/
def specLineValue (l : List Char) : Except PyErr Int :=
  match (wsTokens l).get? 1 with
  | some t => pyIntChars t
  | none => .error .indexError

/-- Modelled from the spec (§4.4), for comparison with the code-derived
`parseBulk`: "parses every line (skipping any comment lines, i.e. lines
beginning with a designated marker), extracts the second
whitespace-separated token of each line as an integer". -/
def specBulkParse (lines : List (List Char)) : Except PyErr (List Int) :=
  (lines.filter (fun l => ¬ startsWithHash l)).mapM specLineValue

/-- The zero-based positions (as Python ints, counting from `idx`) at which
`item` occurs in `xs`, in left-to-right order; the reference list against
which `Sequence.find` is characterised. -/
def occFrom (item : Int) : List Int → Int → List Int
  | [], _ => []
  | v :: rest, idx =>
      if v = item then idx :: occFrom item rest (idx + 1)
      else occFrom item rest (idx + 1)

/-! ### Concrete instances used by counterexamples and witnesses -/

/-- A freshly constructed instance whose inline sample holds two terms. -/
def exSeq : Sequence := ⟨1, [1, 2]⟩

/-- A remote environment whose b-file completes `exSeq` to three terms. -/
def exEnv3 : Env := ⟨"0 1\n1 2\n2 3"⟩

/-- A remote environment whose b-file completes `exSeq` to five terms. -/
def exEnv5 : Env := ⟨"0 1\n1 2\n2 3\n3 4\n4 5"⟩

/-- The state of `exSeq` after fetching the b-file of `exEnv3`. -/
def exSeqFull3 : Sequence := ⟨1, [1, 2, 3]⟩

/-- The state of `exSeq` after fetching the b-file of `exEnv5`. -/
def exSeqFull5 : Sequence := ⟨1, [1, 2, 3, 4, 5]⟩

/-- An instance whose sample holds a single occurrence of 7. -/
def exSeq7 : Sequence := ⟨7, [7]⟩

/-- An instance whose sample holds three occurrences of 5. -/
def exSeq5 : Sequence := ⟨2, [5, 5, 5]⟩

/-- A search environment reporting two matching records. -/
def exQEnv : QueryEnv := ⟨some [⟨5⟩, ⟨6⟩]⟩

/-- A search environment reporting no matches (`null` results). -/
def exQEnvNone : QueryEnv := ⟨none⟩

/-! ## Claim C1 -/

/-- C1, counterexample: on a sample of two terms, `nth_term 2` never triggers
the bulk-fetch escalation — it raises `IndexTooHighError` with a bulk-call
count of 0 — even though escalating through `fetch_sequence` would complete
the data to five terms, within which index 2 holds the value 3. This
falsifies, at this concrete input, the claim that `nth_term` escalates
before deciding the outcome and returns the value when the index is in
range of the completed data. -/
theorem C1_counterexample :
    Sequence.nth_term exSeq 2 = (.error .indexTooHighError, exSeq, 0) ∧
    Sequence.fetch_sequence exEnv5 exSeq = (.ok (), exSeqFull5, 1) ∧
    Sequence.nth_term exSeqFull5 2 = (.ok 3, exSeqFull5, 0) := by
  decide

/-- C1, amended: for every index at or beyond the current sample length,
`nth_term` fails with `IndexTooHighError` without performing any bulk
fetch and without touching the state; it never escalates. -/
theorem C1_amended_no_escalation (s : Sequence) (i : Int)
    (h : (s.sequence.length : Int) ≤ i) :
    s.nth_term i = (.error .indexTooHighError, s, 0) := by
  have h0 : ¬ i < 0 := by omega
  simp [Sequence.nth_term, h0, h]

/-- C1, witness for the amended theorem at sample `[1, 2]`, index 2. -/
theorem C1_amended_no_escalation_witness :
    Sequence.nth_term exSeq 2 = (.error .indexTooHighError, exSeq, 0) :=
  C1_amended_no_escalation exSeq 2 (by decide)

/-! ## Claim C2 -/

/-- C2, counterexample: `exSeqFull3` already holds the complete parsed
contents of the b-file of `exEnv3` (it is the state a first
`fetch_sequence` produces), yet invoking `fetch_sequence` on it performs
one remote bulk call, not zero — the code keeps no `fullyFetched` flag, so
the invocation is not the claimed no-op. -/
theorem C2_counterexample :
    Sequence.fetch_sequence exEnv3 exSeq = (.ok (), exSeqFull3, 1) ∧
    Sequence.fetch_sequence exEnv3 exSeqFull3 = (.ok (), exSeqFull3, 1) ∧
    ¬ (Sequence.fetch_sequence exEnv3 exSeqFull3).2.2 = 0 := by
  decide

/-- C2, amended: the escalation is idempotent only in its effect — a
second `fetch_sequence` against the same remote data returns the same
state — but every invocation performs exactly one remote bulk call (there
is no `fullyFetched` guard), and term lookups themselves never contact
the bulk source. -/
theorem C2_amended_idempotent_effect (env : Env) (s t : Sequence)
    (h : Sequence.fetch_sequence env s = (.ok (), t, 1)) :
    Sequence.fetch_sequence env t = (.ok (), t, 1) ∧
    (∀ (e : Env) (u : Sequence), (Sequence.fetch_sequence e u).2.2 = 1) ∧
    (∀ i : Int, (Sequence.nth_term t i).2.2 = 0) := by
  refine ⟨?_, ?_, ?_⟩
  · cases hp : parseBulk env.bulkText with
    | ok l =>
        simp only [Sequence.fetch_sequence, hp] at h ⊢
        have ht : t = { s with sequence := l } := by
          cases h' : ({ s with sequence := l } : Sequence) == t <;> simp_all
        cases t
        simp_all
    | error e =>
        simp [Sequence.fetch_sequence, hp] at h
  · intro e u
    cases hp : parseBulk e.bulkText <;> simp [Sequence.fetch_sequence, hp]
  · intro i
    simp [Sequence.nth_term]

/-- C2, witness for the amended theorem: a second fetch against `exEnv3`
returns the fully-fetched state unchanged (and still costs one call). -/
theorem C2_amended_idempotent_effect_witness :
    Sequence.fetch_sequence exEnv3 exSeqFull3 = (.ok (), exSeqFull3, 1) :=
  (C2_amended_idempotent_effect exEnv3 exSeq exSeqFull3 (by decide)).1

/-! ## Claim C3 -/

/-- C3, counterexample: with a two-term sample, `subsequence(0, 4)` is not
satisfiable from the sample; the code raises `IndexTooHighError` with a
bulk-call count of 0 — it never escalates — even though escalating would
complete the data to five terms, against which the claimed `>=`
re-validation would pass (4 < 5) and return `[1, 2, 3, 4]`. -/
theorem C3_counterexample :
    Sequence.subsequence exSeq (some 0) (some 4) none =
      (.error .indexTooHighError, exSeq, 0) ∧
    Sequence.fetch_sequence exEnv5 exSeq = (.ok (), exSeqFull5, 1) ∧
    Sequence.subsequence exSeqFull5 (some 0) (some 4) none =
      (.ok [1, 2, 3, 4], exSeqFull5, 0) := by
  decide

/-- C3, amended: `subsequence` never escalates; a nonnegative start or stop
strictly greater than the current sample length raises `IndexTooHighError`
with no bulk fetch (start or stop equal to the current length is allowed by
the code's strict `>` checks), and no clamped result is ever returned for
such a request. -/
theorem C3_amended_no_escalation (s : Sequence) (start stop : Int)
    (step? : Option Int) (h0 : 0 ≤ start) (h1 : 0 ≤ stop)
    (h2 : (s.sequence.length : Int) < start ∨ (s.sequence.length : Int) < stop) :
    s.subsequence (some start) (some stop) step? =
      (.error .indexTooHighError, s, 0) := by
  have hA : ¬ start < 0 := by omega
  have hB : ¬ stop < 0 := by omega
  by_cases hC : (s.sequence.length : Int) < start
  · simp [Sequence.subsequence, hA, hB, hC]
  · have hD : (s.sequence.length : Int) < stop := h2.resolve_left hC
    simp [Sequence.subsequence, hA, hB, hC, hD]

/-- C3, witness for the amended theorem at sample `[1, 2]`, request
`subsequence(0, 4)`. -/
theorem C3_amended_no_escalation_witness :
    Sequence.subsequence exSeq (some 0) (some 4) none =
      (.error .indexTooHighError, exSeq, 0) :=
  C3_amended_no_escalation exSeq 0 4 none (by decide) (by decide)
    (Or.inr (by decide))

/-! ## Claim C4 -/

/-- C4: the claim is right about the intent (the methods' own docstrings
promise the adjacent element), but the code is wrong: `find` returns a
list, so `self.sequence[self.find(item) + 1]` and
`self.sequence[self.find(item) - 1]` evaluate Python `list + int` /
`list - int`, which raises `TypeError` for every state and every item —
`next` and `prev` can never return an element nor reach the underlying
index lookup. -/
theorem C4_next_prev_always_type_error (s : Sequence) (item : Int) :
    s.next item = (.error .typeError, s, 0) ∧
    s.prev item = (.error .typeError, s, 0) := by
  constructor <;> rfl

/-! ## Claim C5 -/

/-- C5: a negative index makes `nth_term` fail with `NegativeIndexError`,
and a negative start or stop makes `subsequence` fail with
`NegativeIndexError`, in both cases with a bulk-call count of 0 and the
state untouched — the checks run before any network operation (the two
method bodies contain none at all). -/
theorem C5_negative_fail_fast (s : Sequence) (i start stop : Int)
    (step? : Option Int) (hi : i < 0) (hs : start < 0 ∨ stop < 0) :
    s.nth_term i = (.error .negativeIndexError, s, 0) ∧
    s.subsequence (some start) (some stop) step? =
      (.error .negativeIndexError, s, 0) := by
  constructor
  · simp [Sequence.nth_term, hi]
  · by_cases hA : start < 0
    · simp [Sequence.subsequence, hA]
    · have hB : stop < 0 := hs.resolve_left hA
      simp [Sequence.subsequence, hA, hB]

/-- C5, witness at index -1 and bounds (-2, -3). -/
theorem C5_negative_fail_fast_witness :
    Sequence.nth_term exSeq (-1) = (.error .negativeIndexError, exSeq, 0) ∧
    Sequence.subsequence exSeq (some (-2)) (some (-3)) none =
      (.error .negativeIndexError, exSeq, 0) :=
  C5_negative_fail_fast exSeq (-1) (-2) (-3) none (by decide)
    (Or.inl (by decide))

/-! ## Claim C6 -/

/-- C6: for every index `i` with `0 ≤ i` strictly below the current sample
length, `nth_term i` returns `sample[i]` directly, with the state untouched
and a bulk-call count of 0 — no remote call. -/
theorem C6_in_sample_direct (s : Sequence) (i : Int) (h0 : 0 ≤ i)
    (h1 : i.toNat < s.sequence.length) :
    s.nth_term i = (.ok (s.sequence.get ⟨i.toNat, h1⟩), s, 0) := by
  have hA : ¬ i < 0 := by omega
  have hB : ¬ (s.sequence.length : Int) ≤ i := by omega
  simp only [Sequence.nth_term, hA, hB, if_false]
  rw [List.getD_eq_getElem _ _ h1]
  simp

/-- C6, witness at sample `[1, 2]`, index 1 (value 2). -/
theorem C6_in_sample_direct_witness :
    Sequence.nth_term exSeq 1 = (.ok 2, exSeq, 0) :=
  C6_in_sample_direct exSeq 1 (by decide) (by decide)

/-! ## Claim C7 -/

/-- C7: `fetch_sequence` refines the spec's parse: its one GET obtains the
b-file text, and the resulting state replaces the sample wholesale (the
old sample does not influence the result) with exactly the list the
spec-modelled `specBulkParse` extracts from the file's lines — comment
lines beginning with `#` skipped, the second whitespace-separated token of
each remaining line read as an integer. -/
theorem C7_fetch_refines_spec (env : Env) (s : Sequence) :
    Sequence.fetch_sequence env s =
      match specBulkParse (pyLines env.bulkText) with
      | .ok l => (.ok (), { s with sequence := l }, 1)
      | .error e => (.error e, s, 1) := by
  have hlv : specLineValue = lineValue := funext fun l => rfl
  unfold Sequence.fetch_sequence parseBulk specBulkParse
  rw [hlv]

/-! ## Claim C8

Helper lemmas characterising the `find` loop against `occFrom`. -/

/-- With a negative instance count, the early-return test
`len(result) == instances` can never fire, so the loop collects every
occurrence. -/
theorem findGo_neg (item n : Int) (hn : n < 0) :
    ∀ (xs : List Int) (idx : Int) (result : List Int),
      findGo item n xs idx result = result ++ occFrom item xs idx := by
  intro xs
  induction xs with
  | nil => intro idx result; simp [findGo, occFrom]
  | cons v rest ih =>
      intro idx result
      have hne : ¬ ((result.length : Int) = n) := by omega
      by_cases hv : v = item
      · simp [findGo, hne, hv, occFrom, ih]
      · simp [findGo, hne, hv, occFrom, ih]

/-- With a nonnegative instance count `k`, the loop extends the accumulated
`result` with the next `k - result.length` occurrences. -/
theorem findGo_nonneg (item : Int) (k : Nat) :
    ∀ (xs : List Int) (idx : Int) (result : List Int), result.length ≤ k →
      findGo item (k : Int) xs idx result =
        result ++ (occFrom item xs idx).take (k - result.length) := by
  intro xs
  induction xs with
  | nil => intro idx result _; simp [findGo, occFrom]
  | cons v rest ih =>
      intro idx result hlen
      by_cases heq : result.length = k
      · have h1 : ((result.length : Int) = (k : Int)) := by omega
        simp [findGo, h1, heq]
      · have hlt : result.length < k := lt_of_le_of_ne hlen heq
        have hne : ¬ ((result.length : Int) = (k : Int)) := by omega
        by_cases hv : v = item
        · have hstep : k - result.length = (k - (result ++ [idx]).length) + 1 := by
            simp only [List.length_append, List.length_cons, List.length_nil]
            omega
          simp only [findGo, hne, if_false, hv, if_true, occFrom,
            ih (idx + 1) (result ++ [idx]) (by simp; omega), hstep,
            List.take_succ_cons, List.append_assoc, List.singleton_append,
            List.cons_append, List.nil_append]
        · simp only [findGo, hne, if_false, hv, if_true, occFrom,
            ih (idx + 1) result hlen]

/-- Every position recorded by `occFrom` is at least the starting index. -/
theorem occFrom_le (item : Int) :
    ∀ (xs : List Int) (idx a : Int), a ∈ occFrom item xs idx → idx ≤ a := by
  intro xs
  induction xs with
  | nil => intro idx a ha; simp [occFrom] at ha
  | cons v rest ih =>
      intro idx a ha
      by_cases hv : v = item
      · simp only [occFrom, hv, if_true, List.mem_cons] at ha
        rcases ha with rfl | ha
        · exact le_refl a
        · exact le_trans (by omega) (ih (idx + 1) a ha)
      · simp only [occFrom, hv, if_false] at ha
        exact le_trans (by omega) (ih (idx + 1) a ha)

/-- The occurrence positions are strictly ascending. -/
theorem occFrom_pairwise (item : Int) :
    ∀ (xs : List Int) (idx : Int),
      (occFrom item xs idx).Pairwise (· < ·) := by
  intro xs
  induction xs with
  | nil => intro idx; simp [occFrom]
  | cons v rest ih =>
      intro idx
      by_cases hv : v = item
      · simp only [occFrom, hv, if_true]
        exact List.Pairwise.cons
          (fun a ha => lt_of_lt_of_le (by omega) (occFrom_le item rest (idx + 1) a ha))
          (ih (idx + 1))
      · simpa [occFrom, hv] using ih (idx + 1)

/-- Closed form of `Sequence.find` with an explicit count: the first
`count` occurrence positions for a nonnegative count, all of them for a
negative one. -/
theorem find_closed_form (s : Sequence) (item n : Int) :
    s.find item (some n) =
      if 0 ≤ n then (occFrom item s.sequence 0).take n.toNat
      else occFrom item s.sequence 0 := by
  unfold Sequence.find
  simp only [Option.getD_some]
  by_cases h : 0 ≤ n
  · rw [if_pos h]
    have key := findGo_nonneg item n.toNat s.sequence 0 [] (by simp)
    rw [Int.toNat_of_nonneg h] at key
    simpa using key
  · rw [if_neg h, findGo_neg item n (by omega) s.sequence 0 []]
    simp

/-- C8, counterexample: with a one-term sample `[7]`, `find(7, -1)` returns
`[0]`, a list of one index — more than the count −1 — so the claim's "at
most count" bound fails for a negative count: the early-stop test
`len(result) == instances` never fires and all occurrences are returned. -/
theorem C8_counterexample :
    Sequence.find exSeq7 7 (some (-1)) = [0] ∧
    ¬ (((Sequence.find exSeq7 7 (some (-1))).length : Int) ≤ -1) := by
  decide

/-- C8, amended: with the default count (1) and with any explicit count,
`find` returns the occurrence positions of `item` in the current sample in
strictly ascending order: the first `count` of them when the count is
nonnegative (hence at most `count` entries, fewer — possibly none — when
fewer matches exist, which is not an error), and all of them when the
count is negative. -/
theorem C8_find_up_to_count (s : Sequence) (item n : Int) :
    s.find item none = (occFrom item s.sequence 0).take 1 ∧
    s.find item (some n) =
      (if 0 ≤ n then (occFrom item s.sequence 0).take n.toNat
       else occFrom item s.sequence 0) ∧
    (s.find item (some n)).Pairwise (· < ·) ∧
    (0 ≤ n → ((s.find item (some n)).length : Int) ≤ n) := by
  refine ⟨?_, find_closed_form s item n, ?_, ?_⟩
  · unfold Sequence.find
    simp only [Option.getD_none]
    have h1 : ((1 : Nat) : Int) = (1 : Int) := rfl
    rw [← h1, findGo_nonneg item 1 s.sequence 0 [] (by simp)]
    simp
  · rw [find_closed_form s item n]
    by_cases h : 0 ≤ n
    · rw [if_pos h]
      exact (occFrom_pairwise item s.sequence 0).sublist
        (List.take_sublist n.toNat _)
    · rw [if_neg h]
      exact occFrom_pairwise item s.sequence 0
  · intro h
    rw [find_closed_form s item n, if_pos h]
    have := List.length_take_le n.toNat (occFrom item s.sequence 0)
    omega

/-- C8, witness for the amended theorem: `find(5, 2)` on `[5, 5, 5]`
returns at most two indices. -/
theorem C8_find_up_to_count_witness :
    ((Sequence.find exSeq5 5 (some 2)).length : Int) ≤ 2 :=
  (C8_find_up_to_count exSeq5 5 2).2.2.2 (by decide)

/-! ## Claim C9 -/

/-- C9: `query` with an empty terms list fails with `EmptyQuery` at a call
count of 0 — before any network request; with non-empty terms and a search
response of `null` it returns the empty list (one search call, no error);
and with non-empty terms, a nonnegative limit `r` and a response list `l`
it returns the ids of the first `r` records — at most `r` constructed
`Sequence` objects. -/
theorem C9_query_contract :
    (∀ (env : QueryEnv) (start? results? : Option Int),
        query env [] start? results? = (.error .emptyQuery, 0)) ∧
    (∀ (env : QueryEnv) (terms : List String) (start? results? : Option Int),
        terms ≠ [] → env.searchResult = none →
        query env terms start? results? = (.ok [], 1)) ∧
    (∀ (env : QueryEnv) (terms : List String) (start? : Option Int)
        (r : Int) (l : List SearchRec),
        terms ≠ [] → 0 ≤ r → env.searchResult = some l →
        (query env terms start? (some r)).1 =
          .ok ((l.take r.toNat).map SearchRec.number) ∧
        ((l.take r.toNat).map SearchRec.number).length ≤ r.toNat) := by
  refine ⟨?_, ?_, ?_⟩
  · intro env start? results?
    simp [query]
  · intro env terms start? results? hne hnone
    simp [query, hne, hnone]
  · intro env terms start? r l hne hr hsome
    constructor
    · simp [query, hne, hsome, pyTakeSlice, hr]
    · simp only [List.length_map]
      have := List.length_take_le r.toNat l
      omega

/-- C9, witness: a `null` search response gives `[]` after one call, and a
two-record response with limit 1 constructs exactly the first id. -/
theorem C9_query_contract_witness :
    query exQEnvNone ["fib"] none none = (.ok [], 1) ∧
    (query exQEnv ["fib"] none (some 1)).1 = .ok [5] ∧
    query exQEnv [] none none = (.error .emptyQuery, 0) := by
  refine ⟨?_, ?_, ?_⟩
  · exact C9_query_contract.2.1 exQEnvNone ["fib"] none none (by decide) rfl
  · have h := (C9_query_contract.2.2 exQEnv ["fib"] none 1 [⟨5⟩, ⟨6⟩]
      (by decide) (by decide) rfl).1
    rw [h]
    decide
  · exact C9_query_contract.1 exQEnv none none

/-! ## Claim C10 -/

/-- C10: indexing a `Sequence` with a key that is neither an int nor a
slice (here: any string key) silently returns Python `None` — `__getitem__`
dispatches only on `int` and `slice` and falls through otherwise, raising
nothing and performing no call. -/
theorem C10_getitem_fallthrough (s : Sequence) (key : String) :
    s.getitem (.str key) = (.ok none, s, 0) := rfl

end PyOeis
